import Mathlib

/-!
Shallow embedding of the event-normalization and date-derivation core of the
railway-modelling-events static-site builder (src/src/build.ts and the build
script revisions in src/unnamed/part_000), together with proofs about its
derived views: upcoming-events filtering, date-descending sorting, county
grouping, current-month filtering, date formatting, and the Google / Outlook /
ICS calendar-export derivations.

Modelling conventions:
- An event record is a structure of optional string fields, mirroring the
  `Event` interface of src/src/types.ts.
- JavaScript `a || b` chains over possibly-missing string fields are modelled
  by `firstTruthy`: the empty string and a missing field are both falsy.
- Calendar dates are `ISODate` triples (year, month, day); `new Date(s)` on an
  ISO `YYYY-MM-DD` string is `parseISODate`, which yields `none` exactly when
  JavaScript would yield an Invalid Date.  The build runs in a single timezone
  (CI uses UTC), so local-time and UTC calendar components coincide and
  date-only comparisons are modelled at day granularity.
- JavaScript string comparison (`<`, `>`) is code-point lexicographic for the
  ASCII date strings involved; it is modelled by comparing the lists of
  code points with the lexicographic order on `List ℕ`.  `localeCompare` on
  county names is likewise modelled as code-point order.
- `Array.prototype.sort` is stable; it is modelled by `List.insertionSort`
  (also stable) with the comparator's "comes before or ties" relation.
- Functions that can throw (`toISOString` on an Invalid Date, property access
  on `null`) return `Except String _`, the error case standing for the thrown
  exception.
-/

/-! ### Event records (src/src/types.ts, interface Event) -/

/-- One raw event record, as in the `Event` interface: every field except
`name` is optional. -/
structure Event where
  name : String
  date : Option String := none
  start_date : Option String := none
  end_date : Option String := none
  startDate : Option String := none
  endDate : Option String := none
  location : Option String := none
  venue : Option String := none
  description : Option String := none
  url : Option String := none
  organiser : Option String := none
  organizer : Option String := none
  county : Option String := none
deriving DecidableEq, Repr

/-- JavaScript truthiness of an optional string field: missing and the empty
string are falsy. -/
def jsTruthy : Option String → Bool
  | none => false
  | some s => s ≠ ""

/-- The first truthy value of a `a || b || c` chain of optional string fields;
`none` when every field is missing or empty (the whole chain is falsy). -/
def firstTruthy : List (Option String) → Option String
  | [] => none
  | o :: rest => if jsTruthy o then o else firstTruthy rest

/-- Start-date alias resolution, `event.startDate || event.start_date ||
event.date` (alias priority `startDate` > `start_date` > `date`). -/
def resolveStartDate (e : Event) : Option String :=
  firstTruthy [e.startDate, e.start_date, e.date]

/-- End-date alias resolution, `event.endDate || event.end_date`. -/
def resolveEndDate (e : Event) : Option String :=
  firstTruthy [e.endDate, e.end_date]

/-! ### Calendar dates -/

/-- A calendar date (no time of day), the reading of a `YYYY-MM-DD` string. -/
structure ISODate where
  year : Nat
  month : Nat
  day : Nat
deriving DecidableEq, Repr

/-- Gregorian leap-year rule. -/
def isLeapYear (y : Nat) : Bool :=
  (y % 4 = 0 ∧ y % 100 ≠ 0) ∨ y % 400 = 0

/-- Days in a month of a given year. -/
def daysInMonth (y m : Nat) : Nat :=
  if m = 2 then (if isLeapYear y then 29 else 28)
  else if m = 4 ∨ m = 6 ∨ m = 9 ∨ m = 11 then 30
  else 31

/-- The value of an ASCII digit character, `none` for any other character. -/
def digitVal (c : Char) : Option Nat :=
  if 48 ≤ c.toNat ∧ c.toNat ≤ 57 then some (c.toNat - 48) else none

/-- Reading of a `YYYY-MM-DD` string as by `new Date(s)`: `none` (JavaScript:
Invalid Date) unless the string is exactly four digits, `-`, two digits, `-`,
two digits, with an in-range month and day. -/
def parseISODate (s : String) : Option ISODate :=
  match s.data with
  | [y1, y2, y3, y4, '-', m1, m2, '-', d1, d2] =>
    match digitVal y1, digitVal y2, digitVal y3, digitVal y4,
          digitVal m1, digitVal m2, digitVal d1, digitVal d2 with
    | some a, some b, some c, some d, some e, some f, some g, some h =>
      let y := ((a * 10 + b) * 10 + c) * 10 + d
      let m := e * 10 + f
      let dd := g * 10 + h
      if 1 ≤ m ∧ m ≤ 12 ∧ 1 ≤ dd ∧ dd ≤ daysInMonth y m then
        some ⟨y, m, dd⟩
      else none
    | _, _, _, _, _, _, _, _ => none
  | _ => none

/-- Day-granularity date order: models comparing the start or end instant of
one calendar day against the start instant of another (`eventEndDate >= today`
after `setHours`). -/
def dateLeB (a b : ISODate) : Bool :=
  if a.year ≠ b.year then decide (a.year < b.year)
  else if a.month ≠ b.month then decide (a.month < b.month)
  else decide (a.day ≤ b.day)

/-- The calendar day after a date: models `d.setDate(d.getDate() + 1)`. -/
def addOneDay (d : ISODate) : ISODate :=
  if d.day < daysInMonth d.year d.month then ⟨d.year, d.month, d.day + 1⟩
  else if d.month < 12 then ⟨d.year, d.month + 1, 1⟩
  else ⟨d.year + 1, 1, 1⟩

/-- Digit character of a value below ten. -/
def digitChar (n : Nat) : Char := Char.ofNat (48 + n)

/-- Decimal digits of a number, most significant first (fuel-driven so that it
reduces in the kernel; the fuel `n + 1` always suffices). -/
def natToCharsAux : Nat → Nat → List Char
  | 0, _ => []
  | fuel + 1, n =>
    if n < 10 then [digitChar n]
    else natToCharsAux fuel (n / 10) ++ [digitChar (n % 10)]

/-- Decimal rendering of a number, as JavaScript template interpolation of a
(nonnegative integral) number. -/
def natToString (n : Nat) : String := String.mk (natToCharsAux (n + 1) n)

/-- Two-digit zero-padded rendering (month and day fields of ISO strings). -/
def pad2 (n : Nat) : String :=
  if n < 10 then "0" ++ natToString n else natToString n

/-- Four-digit zero-padded rendering (year field of ISO strings). -/
def pad4 (n : Nat) : String :=
  if n < 10 then "000" ++ natToString n
  else if n < 100 then "00" ++ natToString n
  else if n < 1000 then "0" ++ natToString n
  else natToString n

/-- The `YYYY-MM-DD` rendering of a date: `toISOString().split('T')[0]`. -/
def dateToISO (d : ISODate) : String :=
  pad4 d.year ++ "-" ++ pad2 d.month ++ "-" ++ pad2 d.day

/-- The full `toISOString()` rendering of a date at midnight UTC. -/
def dateToISOString (d : ISODate) : String :=
  dateToISO d ++ "T00:00:00.000Z"

/-! ### String comparison as JavaScript compares strings -/

/-- The code points of a string, for lexicographic comparison. -/
def strKey (s : String) : List Nat := s.data.map Char.toNat

/-! ### Upcoming-events filter (part_000 lines 332-347) -/

/-- The date string an event's "upcoming" test is made on:
`event.endDate || event.end_date || event.startDate || event.start_date ||
event.date` (end date, falling back to start date). -/
def resolveUpcomingEnd (e : Event) : Option String :=
  firstTruthy [e.endDate, e.end_date, e.startDate, e.start_date, e.date]

/-- One event's "upcoming" test against the start of `today`'s calendar day:
the event day's 23:59:59.999 instant is on or after today's 00:00 instant
exactly when the event's end day is on or after today's day. -/
def isUpcoming (e : Event) (today : ISODate) : Bool :=
  match resolveUpcomingEnd e with
  | none => false
  | some s =>
    match parseISODate s with
    | none => false
    | some d => dateLeB today d

/-- `filterUpcomingEvents`: keeps events that end today or in the future.  The
source reads `new Date()` itself; the current day is the parameter `today`. -/
def filterUpcomingEvents (events : List Event) (today : ISODate) : List Event :=
  events.filter (fun e => isUpcoming e today)

/-! ### Date-descending sort (part_000 lines 349-359, build.ts lines 31-41) -/

/-- The sort key `a.startDate || a.start_date || a.date || ''`. -/
def startKeyStr (e : Event) : String := (resolveStartDate e).getD ""

/-- The comparator's "a comes before or ties b" relation: the comparator
returns a nonpositive number exactly when `dateB <= dateA` (descending). -/
def descByStart (a b : Event) : Prop := strKey (startKeyStr b) ≤ strKey (startKeyStr a)

instance : DecidableRel descByStart :=
  fun a b => inferInstanceAs (Decidable (strKey (startKeyStr b) ≤ strKey (startKeyStr a)))

instance : IsTotal Event descByStart := ⟨fun x y => le_total (strKey (startKeyStr y)) (strKey (startKeyStr x))⟩

instance : IsTrans Event descByStart := ⟨fun _ _ _ h1 h2 => le_trans h2 h1⟩

/-- `sortEventsByDate`: sorts descending by resolved start date (most recent
first).  `Array.prototype.sort` is stable; so is `insertionSort`. -/
def sortEventsByDate (events : List Event) : List Event :=
  events.insertionSort descByStart

/-- `Array.prototype.sort` sorts the receiver in place and returns it: after
`sortEventsByDate(events)` the caller's array holds the sorted order.  This
definition gives the state of the argument array after the call. -/
def sortEventsByDateArgAfter (events : List Event) : List Event :=
  sortEventsByDate events

/-- `Array.prototype.filter` allocates a fresh array: the argument array of
`filterUpcomingEvents` is unchanged by the call. -/
def filterUpcomingEventsArgAfter (events : List Event) (_today : ISODate) : List Event :=
  events

/-! ### Ordinal suffixes and date formatting (part_000 lines 361-405) -/

/-- `getOrdinalSuffix`: `th` for 4..20, otherwise by last digit. -/
def getOrdinalSuffix (day : Nat) : String :=
  if day > 3 ∧ day < 21 then "th"
  else match day % 10 with
    | 1 => "st"
    | 2 => "nd"
    | 3 => "rd"
    | _ => "th"

/-- Short month name, `toLocaleDateString('en-GB', { month: 'short' })`. -/
def monthShortName (m : Nat) : String :=
  match m with
  | 1 => "Jan" | 2 => "Feb" | 3 => "Mar" | 4 => "Apr"
  | 5 => "May" | 6 => "Jun" | 7 => "Jul" | 8 => "Aug"
  | 9 => "Sep" | 10 => "Oct" | 11 => "Nov" | _ => "Dec"

/-- Zeller's congruence: 0 = Saturday, 1 = Sunday, ..., 6 = Friday. -/
def zellerIndex (d : ISODate) : Nat :=
  let m := if d.month ≤ 2 then d.month + 12 else d.month
  let y := if d.month ≤ 2 then d.year - 1 else d.year
  (d.day + 13 * (m + 1) / 5 + y % 100 + y % 100 / 4 + y / 100 / 4 + 5 * (y / 100)) % 7

/-- Long weekday name, `toLocaleDateString('en-GB', { weekday: 'long' })`. -/
def weekdayName (d : ISODate) : String :=
  match zellerIndex d with
  | 0 => "Saturday" | 1 => "Sunday" | 2 => "Monday" | 3 => "Tuesday"
  | 4 => "Wednesday" | 5 => "Thursday" | _ => "Friday"

/-- `formatSingleDate`: "Weekday, day(ordinal) Mon year".  An unparseable
string gives NaN components in JavaScript; dates are assumed well-formed and
the unparseable case is collapsed to the sentinel below. -/
def formatSingleDate (dateStr : String) : String :=
  match parseISODate dateStr with
  | some d =>
    weekdayName d ++ ", " ++ natToString d.day ++ getOrdinalSuffix d.day ++ " " ++
      monthShortName d.month ++ " " ++ natToString d.year
  | none => "Invalid Date"

/-- `formatDate`: "Date TBA" without a start date; a range form when an end
date is present and differs from the start date (month name collapsed when the
two month names agree, the year always the start date's); the single-date form
otherwise. -/
def formatDate (e : Event) : String :=
  match resolveStartDate e with
  | none => "Date TBA"
  | some startDate =>
    match resolveEndDate e with
    | some endDate =>
      if endDate ≠ startDate then
        match parseISODate startDate, parseISODate endDate with
        | some ds, some de =>
          if monthShortName ds.month = monthShortName de.month then
            natToString ds.day ++ getOrdinalSuffix ds.day ++ " - " ++
              natToString de.day ++ getOrdinalSuffix de.day ++ " " ++
              monthShortName ds.month ++ " " ++ natToString ds.year
          else
            natToString ds.day ++ getOrdinalSuffix ds.day ++ " " ++
              monthShortName ds.month ++ " - " ++
              natToString de.day ++ getOrdinalSuffix de.day ++ " " ++
              monthShortName de.month ++ " " ++ natToString ds.year
        | _, _ => "Invalid Date"
      else formatSingleDate startDate
    | none => formatSingleDate startDate

/-! ### County grouping (part_000 lines 407-423, build.ts lines 56-72) -/

/-- `event.county || 'Not Specified'`. -/
def countyOf (e : Event) : String :=
  match e.county with
  | some c => if c = "" then "Not Specified" else c
  | none => "Not Specified"

/-- `countyMap.set(county, (countyMap.get(county) || 0) + 1)` on a JavaScript
`Map` held as an insertion-ordered association list: an existing key keeps its
position and its count is bumped, a new key is appended with count 1. -/
def bumpCounty (m : List (String × Nat)) (c : String) : List (String × Nat) :=
  if m.any (fun p => p.1 = c) then
    m.map (fun p => if p.1 = c then (p.1, p.2 + 1) else p)
  else m ++ [(c, 1)]

/-- The county map after the `events.forEach` counting loop. -/
def countyCounts (events : List Event) : List (String × Nat) :=
  events.foldl (fun m e => bumpCounty m (countyOf e)) []

/-- The county comparator's "a comes before or ties b" relation: "Not
Specified" is sent after everything else, other names compare by
`localeCompare` (modelled as code-point order).  On the one impossible tie of
two "Not Specified" keys the relation is reflexive to stay total. -/
def countyOrder (a b : String × Nat) : Prop :=
  if a.1 = "Not Specified" then b.1 = "Not Specified"
  else b.1 = "Not Specified" ∨ strKey a.1 ≤ strKey b.1

instance : DecidableRel countyOrder := fun a b => by
  unfold countyOrder
  exact inferInstance

instance : IsTotal (String × Nat) countyOrder := by
  constructor
  intro a b
  unfold countyOrder
  by_cases ha : a.1 = "Not Specified" <;> by_cases hb : b.1 = "Not Specified" <;>
    simp [ha, hb, le_total (strKey a.1) (strKey b.1)]

instance : IsTrans (String × Nat) countyOrder := by
  constructor
  intro a b c hab hbc
  unfold countyOrder at *
  by_cases ha : a.1 = "Not Specified" <;> by_cases hb : b.1 = "Not Specified" <;>
    by_cases hc : c.1 = "Not Specified" <;> simp_all
  exact le_trans hab hbc

/-- `extractCounties`: counts events per county, then orders the entries
alphabetically with "Not Specified" pinned last (the returned `Map` iterates
in the sorted array's order). -/
def extractCounties (events : List Event) : List (String × Nat) :=
  (countyCounts events).insertionSort countyOrder

/-- `Array.prototype.forEach` and reading entries do not touch the argument
array of `extractCounties`. -/
def extractCountiesArgAfter (events : List Event) : List Event := events

/-! ### Current-month filter (part_000 lines 425-450) -/

/-- One event's membership test for the current month: its resolved start date
parses and has `today`'s year and month (`getMonth()` is 0-based in the
source; equality of month numbers is unaffected by the base). -/
def eventInMonth (e : Event) (now : ISODate) : Bool :=
  match resolveStartDate e with
  | none => false
  | some s =>
    match parseISODate s with
    | none => false
    | some d => d.year = now.year ∧ d.month = now.month

/-- The ascending comparator of the within-month sort. -/
def ascByStart (a b : Event) : Prop := strKey (startKeyStr a) ≤ strKey (startKeyStr b)

instance : DecidableRel ascByStart :=
  fun a b => inferInstanceAs (Decidable (strKey (startKeyStr a) ≤ strKey (startKeyStr b)))

instance : IsTotal Event ascByStart := ⟨fun x y => le_total (strKey (startKeyStr x)) (strKey (startKeyStr y))⟩

instance : IsTrans Event ascByStart := ⟨fun _ _ _ h1 h2 => le_trans h1 h2⟩

/-- `filterEventsByCurrentMonth`: keeps events starting in the current month,
sorted ascending by start date.  The source reads `new Date()` itself; the
current day is the parameter `now`.  The sort runs on the fresh array built by
`filter`, so the argument array is unchanged. -/
def filterEventsByCurrentMonth (events : List Event) (now : ISODate) : List Event :=
  (events.filter (fun e => eventInMonth e now)).insertionSort ascByStart

/-- The argument array of `filterEventsByCurrentMonth` after the call. -/
def filterEventsByCurrentMonthArgAfter (events : List Event) (_now : ISODate) : List Event :=
  events


/-! ### Fetched-document shape handling (build.ts lines 12-29, fetchEvents) -/

/-- A JSON value, the result of `response.json()`. -/
inductive Json where
  | null
  | bool (b : Bool)
  | num (n : Int)
  | str (s : String)
  | arr (elems : List Json)
  | obj (fields : List (String × Json))

/-- JavaScript truthiness of a JSON value: `null`, `false`, `0` and `""` are
falsy; arrays and objects are always truthy. -/
def jsTruthyJson : Json → Bool
  | .null => false
  | .bool b => b
  | .num n => n ≠ 0
  | .str s => s ≠ ""
  | .arr _ => true
  | .obj _ => true

/-- Property read on a parsed JSON object: `JSON.parse` keeps the last of
duplicate keys, so the fold keeps the last binding. -/
def jsonField (fields : List (String × Json)) (k : String) : Option Json :=
  fields.foldl (fun acc p => if p.1 = k then some p.2 else acc) none

/-- The event-list extraction step of `fetchEvents`:
`Array.isArray(data) ? data : (data.events || [])`.  A bare array is returned
itself; property access on `null` throws a TypeError; on any other value
`data.events` is `undefined` (primitives) or the field's value, and the
`|| []` fallback applies when that is falsy. -/
def fetchEventsExtract (data : Json) : Except String Json :=
  match data with
  | .arr _ => .ok data
  | .null => .error "TypeError: Cannot read properties of null (reading 'events')"
  | .obj fields =>
    match jsonField fields "events" with
    | some v => if jsTruthyJson v then .ok v else .ok (.arr [])
    | none => .ok (.arr [])
  | _ => .ok (.arr [])

/-! ### Calendar export (part_000 lines 2340-2571) -/

/-- `escapeICS`: backslashes doubled, then `;`, `,` and newlines escaped; the
sequential `replace` calls are equivalent to this per-character expansion. -/
def escapeICS (text : String) : String :=
  String.mk (text.data.flatMap fun c =>
    if c = '\\' then ['\\', '\\']
    else if c = ';' then ['\\', ';']
    else if c = ',' then ['\\', ',']
    else if c = '\n' then ['\\', 'n']
    else [c])

/-- `formatICSDate`: every dash removed from the date string (a global
regex replace), YYYY-MM-DD to YYYYMMDD. -/
def formatICSDate (dateStr : String) : String :=
  String.mk (dateStr.data.filter (fun c => c ≠ '-'))

/-- ASCII lowercasing of one character (`toLowerCase` on the ASCII names the
slugs are built from). -/
def asciiLower (c : Char) : Char :=
  if 65 ≤ c.toNat ∧ c.toNat ≤ 90 then Char.ofNat (c.toNat + 32) else c

/-- Whitespace as `\s` matches it, for the ASCII range. -/
def isWsChar (c : Char) : Bool :=
  c = ' ' ∨ c = '\t' ∨ c = '\n' ∨ c = '\r'

/-- Replacement of every whitespace run by one `-` (`replace(/\s+/g, '-')`);
the flag records whether the previous character was part of a run. -/
def collapseWsAux : Bool → List Char → List Char
  | _, [] => []
  | prevWs, c :: cs =>
    if isWsChar c then
      (if prevWs then [] else ['-']) ++ collapseWsAux true cs
    else c :: collapseWsAux false cs

/-- `slugify`: lowercase, whitespace runs to `-`, then strip everything
outside `[a-z0-9-]`. -/
def slugify (text : String) : String :=
  String.mk ((collapseWsAux false (text.data.map asciiLower)).filter fun c =>
    (97 ≤ c.toNat ∧ c.toNat ≤ 122) ∨ (48 ≤ c.toNat ∧ c.toNat ≤ 57) ∨ c = '-')

/-- UTF-8 bytes of a code point, for percent-encoding. -/
def utf8Bytes (n : Nat) : List Nat :=
  if n < 128 then [n]
  else if n < 2048 then [192 + n / 64, 128 + n % 64]
  else if n < 65536 then [224 + n / 4096, 128 + n / 64 % 64, 128 + n % 64]
  else [240 + n / 262144, 128 + n / 4096 % 64, 128 + n / 64 % 64, 128 + n % 64]

/-- Bytes `URLSearchParams` serialization leaves unencoded: ASCII
alphanumerics and `*`, `-`, `.`, `_`. -/
def isUrlSafeByte (b : Nat) : Bool :=
  (48 ≤ b ∧ b ≤ 57) ∨ (65 ≤ b ∧ b ≤ 90) ∨ (97 ≤ b ∧ b ≤ 122) ∨
    b = 42 ∨ b = 45 ∨ b = 46 ∨ b = 95

/-- Uppercase hexadecimal digit. -/
def hexDigit (n : Nat) : Char :=
  if n < 10 then Char.ofNat (48 + n) else Char.ofNat (55 + n)

/-- One byte of `application/x-www-form-urlencoded` output: space becomes `+`,
safe bytes stand for themselves, the rest are percent-encoded. -/
def encodeByte (b : Nat) : List Char :=
  if b = 32 then ['+']
  else if isUrlSafeByte b then [Char.ofNat b]
  else ['%', hexDigit (b / 16), hexDigit (b % 16)]

/-- `URLSearchParams` encoding of one name or value. -/
def urlencode (s : String) : String :=
  String.mk (((s.data.map Char.toNat).flatMap utf8Bytes).flatMap encodeByte)

/-- `params.toString()`: `name=value` pairs joined by `&`. -/
def serializeParams (ps : List (String × String)) : String :=
  match ps.map (fun p => urlencode p.1 ++ "=" ++ urlencode p.2) with
  | [] => ""
  | x :: xs => xs.foldl (fun acc y => acc ++ "&" ++ y) x

/-- The export's inclusive end-date string,
`event.endDate || event.end_date || startDateStr` (falls back to the already
resolved start date; shared verbatim by all the export generators). -/
def resolveExportEnd (e : Event) (startDateStr : String) : String :=
  (resolveEndDate e).getD startDateStr

/-- `event.organizer || event.organiser || ''`. -/
def organizerOf (e : Event) : String :=
  (firstTruthy [e.organizer, e.organiser]).getD ""

/-- `organizer ? `${event.name} by ${organizer}` : event.name`. -/
def eventTitleOf (e : Event) : String :=
  if organizerOf e ≠ "" then e.name ++ " by " ++ organizerOf e else e.name

/-- `venue && county ? `${venue}, ${county}` : venue || county`. -/
def locationOf (e : Event) : String :=
  let venue := e.venue.getD ""
  let county := e.county.getD ""
  if venue ≠ "" ∧ county ≠ "" then venue ++ ", " ++ county
  else if venue ≠ "" then venue else county

/-- `event.url ? `More info: ${event.url}` : ''`. -/
def detailsOf (e : Event) : String :=
  match e.url with
  | some u => if u = "" then "" else "More info: " ++ u
  | none => ""

/-- The `URLSearchParams` entries of the Google Calendar link, in insertion
order; `details` and `location` are spread in only when truthy.  `dEnd` is the
parsed inclusive end date (the `+1 day` exclusive adjustment happens here). -/
def googleCalendarParams (e : Event) (startDateStr : String) (dEnd : ISODate) :
    List (String × String) :=
  [("action", "TEMPLATE"),
   ("text", eventTitleOf e),
   ("dates", formatICSDate startDateStr ++ "/" ++
     formatICSDate (dateToISO (addOneDay dEnd)))] ++
  (if detailsOf e ≠ "" then [("details", detailsOf e)] else []) ++
  (if locationOf e ≠ "" then [("location", locationOf e)] else [])

/-- `generateGoogleCalendarUrl`: the empty string without a resolvable start
date; otherwise the render URL.  `toISOString` on an unparseable end date
throws a RangeError. -/
def generateGoogleCalendarUrl (e : Event) : Except String String :=
  match resolveStartDate e with
  | none => .ok ""
  | some startDateStr =>
    match parseISODate (resolveExportEnd e startDateStr) with
    | none => .error "RangeError: Invalid time value"
    | some dEnd =>
      .ok ("https://calendar.google.com/calendar/render?" ++
        serializeParams (googleCalendarParams e startDateStr dEnd))

/-- The `URLSearchParams` entries of the Outlook link, in insertion order.
`dStart` is the parsed start date (`new Date(startDateStr + 'T00:00:00')`),
`dEnd` the parsed inclusive end date. -/
def outlookParams (e : Event) (dStart dEnd : ISODate) : List (String × String) :=
  [("subject", eventTitleOf e),
   ("startdt", dateToISOString dStart),
   ("enddt", dateToISOString (addOneDay dEnd))] ++
  (if detailsOf e ≠ "" then [("body", detailsOf e)] else []) ++
  (if locationOf e ≠ "" then [("location", locationOf e)] else []) ++
  [("path", "/calendar/action/compose"), ("rru", "addevent")]

/-- `generateOutlookUrl`: the empty string without a resolvable start date;
otherwise the deeplink URL.  `toISOString` on an unparseable start or end date
throws a RangeError. -/
def generateOutlookUrl (e : Event) : Except String String :=
  match resolveStartDate e with
  | none => .ok ""
  | some startDateStr =>
    match parseISODate startDateStr with
    | none => .error "RangeError: Invalid time value"
    | some dStart =>
      match parseISODate (resolveExportEnd e startDateStr) with
      | none => .error "RangeError: Invalid time value"
      | some dEnd =>
        .ok ("https://outlook.live.com/calendar/0/deeplink/compose?" ++
          serializeParams (outlookParams e dStart dEnd))

/-- The part of one generated VEVENT before its DTEND line (from the template
literal of `generateICS`): the leading newline, BEGIN, UID, DTSTAMP and
DTSTART lines. -/
def icsEventPre (timestamp uid startDate : String) : String :=
  "\nBEGIN:VEVENT\nUID:" ++ uid ++ "\nDTSTAMP:" ++ timestamp ++
    "\nDTSTART;VALUE=DATE:" ++ startDate ++ "\n"

/-- The part of one generated VEVENT after its DTEND line: SUMMARY, the
conditionally empty DESCRIPTION / LOCATION / URL lines (the template keeps a
blank line when a field is absent), STATUS, TRANSP and END. -/
def icsEventPost (e : Event) : String :=
  "SUMMARY:" ++ escapeICS (eventTitleOf e) ++ "\n" ++
    (if jsTruthy e.description then "DESCRIPTION:" ++ escapeICS (e.description.getD "")
     else "") ++ "\n" ++
    (if locationOf e ≠ "" then "LOCATION:" ++ escapeICS (locationOf e) else "") ++ "\n" ++
    (if jsTruthy e.url then "URL:" ++ e.url.getD "" else "") ++
    "\nSTATUS:CONFIRMED\nTRANSP:TRANSPARENT\nEND:VEVENT\n"

/-- One iteration of the `events.forEach` body of `generateICS`: the text
appended for one event.  An event without a resolvable start date appends
nothing; an unparseable end date makes `toISOString` throw. -/
def icsEventChunk (timestamp : String) (index : Nat) (e : Event) : Except String String :=
  match resolveStartDate e with
  | none => .ok ""
  | some startDateStr =>
    match parseISODate (resolveExportEnd e startDateStr) with
    | none => .error "RangeError: Invalid time value"
    | some dEnd =>
      .ok (icsEventPre timestamp
            ("event-" ++ natToString index ++ "-" ++ formatICSDate startDateStr ++
              "@railwaymodellingevents.com")
            (formatICSDate startDateStr) ++
          ("DTEND;VALUE=DATE:" ++ formatICSDate (dateToISO (addOneDay dEnd)) ++ "\n") ++
          icsEventPost e)

/-- The VCALENDAR header of the per-county calendar file. -/
def icsHeader (countyName : String) : String :=
  "BEGIN:VCALENDAR\nVERSION:2.0\nPRODID:-//Railway Modelling Events//Events Calendar//EN\nCALSCALE:GREGORIAN\nMETHOD:PUBLISH\nX-WR-CALNAME:Railway Modelling Events - " ++
    countyName ++ "\nX-WR-CALDESC:Railway modelling events in " ++ countyName ++
    "\nX-WR-TIMEZONE:Europe/London\n"

/-- `generateICS`: header, one VEVENT per dated event, footer.  The source
reads `new Date()` for DTSTAMP; the serialized timestamp is the parameter. -/
def generateICS (events : List Event) (countyName : String) (timestamp : String) :
    Except String String := do
  let body ← events.enum.foldlM (fun acc p => do
      let chunk ← icsEventChunk timestamp p.1 p.2
      pure (acc ++ chunk)) ""
  pure (icsHeader countyName ++ body ++ "END:VCALENDAR\n")

/-- The part of the single-event calendar before the DTEND line. -/
def singleICSPre (e : Event) (timestamp : String) (startDate : String) : String :=
  "BEGIN:VCALENDAR\nVERSION:2.0\nPRODID:-//Railway Modelling Events//Events Calendar//EN\nCALSCALE:GREGORIAN\nMETHOD:PUBLISH\nX-WR-CALNAME:" ++
    escapeICS (eventTitleOf e) ++ "\nX-WR-TIMEZONE:Europe/London\nBEGIN:VEVENT\nUID:" ++
    ("event-" ++ slugify e.name ++ "-" ++ startDate ++ "@railwaymodellingevents.com") ++
    "\nDTSTAMP:" ++ timestamp ++ "\nDTSTART;VALUE=DATE:" ++ startDate ++ "\n"

/-- The part of the single-event calendar after the DTEND line (its template
ends directly after END:VCALENDAR, with no trailing newline). -/
def singleICSPost (e : Event) : String :=
  "SUMMARY:" ++ escapeICS (eventTitleOf e) ++ "\n" ++
    (if jsTruthy e.description then "DESCRIPTION:" ++ escapeICS (e.description.getD "")
     else "") ++ "\n" ++
    (if locationOf e ≠ "" then "LOCATION:" ++ escapeICS (locationOf e) else "") ++ "\n" ++
    (if jsTruthy e.url then "URL:" ++ e.url.getD "" else "") ++
    "\nSTATUS:CONFIRMED\nTRANSP:TRANSPARENT\nEND:VEVENT\nEND:VCALENDAR"

/-- `generateSingleEventICS`: the empty string without a resolvable start
date; otherwise one VCALENDAR holding one VEVENT. -/
def generateSingleEventICS (e : Event) (timestamp : String) : Except String String :=
  match resolveStartDate e with
  | none => .ok ""
  | some startDateStr =>
    match parseISODate (resolveExportEnd e startDateStr) with
    | none => .error "RangeError: Invalid time value"
    | some dEnd =>
      .ok (singleICSPre e timestamp (formatICSDate startDateStr) ++
          ("DTEND;VALUE=DATE:" ++ formatICSDate (dateToISO (addOneDay dEnd)) ++ "\n") ++
          singleICSPost e)

/-! ### Concrete example records used by the theorems -/

/-- A two-day February event, start 2026-02-07, end 2026-02-09. -/
def evFeb : Event :=
  { name := "Model Rail Expo", startDate := some "2026-02-07", endDate := some "2026-02-09" }

/-- A range crossing a month boundary, 2026-01-28 to 2026-02-02. -/
def evJanFeb : Event :=
  { name := "Winter Show", startDate := some "2026-01-28", endDate := some "2026-02-02" }

/-- An event whose start and end dates are equal. -/
def evSameDay : Event :=
  { name := "Open Day", startDate := some "2026-02-07", endDate := some "2026-02-07" }

/-- An event dated 2026-01-01. -/
def evJan : Event := { name := "New Year Show", startDate := some "2026-01-01" }

/-- An event dated 2025-12-31 (via the `start_date` alias). -/
def evDec : Event := { name := "Year End Show", start_date := some "2025-12-31" }

/-- An event with no date alias at all. -/
def evNoDate : Event := { name := "Undated Show" }

/-- An event dated 2026-03-01. -/
def evMar : Event := { name := "March Fair", startDate := some "2026-03-01" }

/-- An event dated 2026-02-28. -/
def evFebLate : Event := { name := "February Fair", startDate := some "2026-02-28" }

/-- A Yorkshire event. -/
def evYork : Event := { name := "Yorkshire Show", county := some "Yorkshire" }

/-- A first Kent event. -/
def evKent1 : Event := { name := "Kent Show 1", county := some "Kent" }

/-- A second Kent event. -/
def evKent2 : Event := { name := "Kent Show 2", county := some "Kent" }

/-! ### Lookup helpers for stating the county-aggregate properties -/

/-- `Map.get`-style lookup in an association list: the first entry with the
key, zero when the key is absent. -/
def getCount (m : List (String × Nat)) (c : String) : Nat :=
  match m.find? (fun p => p.1 = c) with
  | some p => p.2
  | none => 0

/-- The number of records mapped to county `c`. -/
def countyCountOf (events : List Event) (c : String) : Nat :=
  (events.map countyOf).count c

/-! ## Theorems -/

/-- C7: for every day number 1..31 the ordinal suffix attached to formatted
dates follows the standard English rule: "st" for 1, 21, 31; "nd" for 2, 22;
"rd" for 3, 23; "th" for 11, 12, 13 and every other day. -/
theorem getOrdinalSuffix_standardRule : ∀ d : Fin 31,
    getOrdinalSuffix (d.val + 1) =
      (if d.val + 1 = 1 ∨ d.val + 1 = 21 ∨ d.val + 1 = 31 then "st"
       else if d.val + 1 = 2 ∨ d.val + 1 = 22 then "nd"
       else if d.val + 1 = 3 ∨ d.val + 1 = 23 then "rd"
       else "th") := by
  decide

/-- C10: a record with no resolvable start-date alias makes each calendar
export return the empty string, with no error raised. -/
theorem calendarExports_emptyWithoutStartDate (e : Event) (ts : String)
    (h : resolveStartDate e = none) :
    generateGoogleCalendarUrl e = .ok "" ∧
    generateOutlookUrl e = .ok "" ∧
    generateSingleEventICS e ts = .ok "" := by
  refine ⟨?_, ?_, ?_⟩ <;>
    simp [generateGoogleCalendarUrl, generateOutlookUrl, generateSingleEventICS, h]

/-- Witness for C10 at a record with no date fields. -/
theorem calendarExports_emptyWithoutStartDate_witness :
    generateGoogleCalendarUrl evNoDate = .ok "" ∧
    generateOutlookUrl evNoDate = .ok "" ∧
    generateSingleEventICS evNoDate "20260101T000000Z" = .ok "" :=
  calendarExports_emptyWithoutStartDate evNoDate "20260101T000000Z" rfl

/-- C9 (counterexample): `sortEventsByDate` sorts its argument array in
place, so a list that is not already in descending date order is changed by
the call. -/
theorem sortEventsByDate_mutates_input :
    sortEventsByDateArgAfter [evDec, evJan] ≠ [evDec, evJan] := by
  decide

/-- C9 (amended): the filtering and grouping operations leave their input
collection unchanged, but `sortEventsByDate` reorders its input array in
place and returns that same array, so after the call the input holds the
sorted order (it is unchanged only when it was already sorted). -/
theorem pipelineOps_frame :
    (∀ evs today, filterUpcomingEventsArgAfter evs today = evs) ∧
    (∀ evs, extractCountiesArgAfter evs = evs) ∧
    (∀ evs now, filterEventsByCurrentMonthArgAfter evs now = evs) ∧
    (∀ evs, sortEventsByDateArgAfter evs = sortEventsByDate evs) :=
  ⟨fun _ _ => rfl, fun _ => rfl, fun _ _ => rfl, fun _ => rfl⟩

/-- C4 (counterexample): the claim's "any other top-level shape yields an
empty event list, silently" fails: a top-level `null` raises a TypeError, and
an object whose `events` field holds a truthy non-array yields that value,
not an empty list. -/
theorem fetchEventsExtract_notAlwaysSilentEmpty :
    fetchEventsExtract Json.null =
      .error "TypeError: Cannot read properties of null (reading 'events')" ∧
    fetchEventsExtract (Json.obj [("events", Json.num 42)]) = .ok (Json.num 42) ∧
    Json.num 42 ≠ Json.arr [] :=
  ⟨rfl, rfl, fun h => Json.noConfusion h⟩

/-- C4 (amended): the event-list extraction returns a bare array itself;
raises a TypeError on a top-level `null`; returns the `events` field's value
whenever that field is present and truthy (in particular the array when it
holds one); and returns an empty event list when the field is absent or falsy
or the document is a non-null primitive. -/
theorem fetchEventsExtract_shapeHandling :
    (∀ l, fetchEventsExtract (Json.arr l) = .ok (Json.arr l)) ∧
    (fetchEventsExtract Json.null =
      .error "TypeError: Cannot read properties of null (reading 'events')") ∧
    (∀ fs v, jsonField fs "events" = some v → jsTruthyJson v = true →
      fetchEventsExtract (Json.obj fs) = .ok v) ∧
    (∀ fs v, jsonField fs "events" = some v → jsTruthyJson v = false →
      fetchEventsExtract (Json.obj fs) = .ok (Json.arr [])) ∧
    (∀ fs, jsonField fs "events" = none →
      fetchEventsExtract (Json.obj fs) = .ok (Json.arr [])) ∧
    (∀ b, fetchEventsExtract (Json.bool b) = .ok (Json.arr [])) ∧
    (∀ n, fetchEventsExtract (Json.num n) = .ok (Json.arr [])) ∧
    (∀ s, fetchEventsExtract (Json.str s) = .ok (Json.arr [])) := by
  refine ⟨fun l => rfl, rfl, ?_, ?_, ?_, fun b => rfl, fun n => rfl, fun s => rfl⟩
  · intro fs v hf ht
    simp [fetchEventsExtract, hf, ht]
  · intro fs v hf ht
    simp [fetchEventsExtract, hf, ht]
  · intro fs hf
    simp [fetchEventsExtract, hf]

/-- A string whose code-point key is lexicographically at most the empty
string's is itself empty. -/
theorem strKey_le_nil_eq_empty {s : String} (h : strKey s ≤ strKey "") : s = "" := by
  have hnil : strKey s = [] := le_antisymm h List.nil_le
  have hdata : s.data = [] := by
    have := List.map_eq_nil_iff.mp hnil
    simpa [strKey] using this
  exact String.ext hdata

/-- C5: `isUpcoming` holds exactly when the record's resolved end date
(falling back to the resolved start date when no end-date alias is present)
is on or after the start of the reference day; records whose resolved end day
is earlier are dropped by the filter, and records with no resolvable date are
excluded. -/
theorem isUpcoming_iff_endDate_onOrAfter : ∀ (e : Event) (today : ISODate) (evs : List Event),
    (isUpcoming e today = true ↔
      ∃ s d, resolveUpcomingEnd e = some s ∧ parseISODate s = some d ∧
        dateLeB today d = true) ∧
    (resolveEndDate e = none → resolveUpcomingEnd e = resolveStartDate e) ∧
    (resolveUpcomingEnd e = none → isUpcoming e today = false) ∧
    (∀ x, x ∈ filterUpcomingEvents evs today ↔ x ∈ evs ∧ isUpcoming x today = true) := by
  intro e today evs
  refine ⟨?_, ?_, ?_, ?_⟩
  · cases h1 : resolveUpcomingEnd e with
    | none => simp [isUpcoming, h1]
    | some s =>
      cases h2 : parseISODate s with
      | none => simp [isUpcoming, h1, h2]
      | some d => simp [isUpcoming, h1, h2]
  · intro hend
    by_cases h1 : jsTruthy e.endDate = true
    · exfalso
      simp only [resolveEndDate, firstTruthy, h1, if_true] at hend
      rw [hend] at h1
      simp [jsTruthy] at h1
    · by_cases h2 : jsTruthy e.end_date = true
      · exfalso
        simp [resolveEndDate, firstTruthy, h1, h2] at hend
        rw [hend] at h2
        simp [jsTruthy] at h2
      · simp [resolveUpcomingEnd, resolveStartDate, firstTruthy, h1, h2]
  · intro h
    simp [isUpcoming, h]
  · intro x
    exact List.mem_filter

/-- C2: `sortEventsByDate` returns a permutation of its input ordered
descending by the lexicographic comparison of the resolved start-date strings
(with the empty-string fallback for records lacking every alias), so records
without a start date come after every record with one; in particular the
2026-01-01, 2025-12-31, undated example keeps exactly that order. -/
theorem sortEventsByDate_descending : ∀ evs : List Event,
    (sortEventsByDate evs).Perm evs ∧
    (sortEventsByDate evs).Pairwise descByStart ∧
    (sortEventsByDate evs).Pairwise
      (fun a b => startKeyStr a = "" → startKeyStr b = "") ∧
    sortEventsByDate [evJan, evDec, evNoDate] = [evJan, evDec, evNoDate] := by
  intro evs
  refine ⟨List.perm_insertionSort descByStart evs, List.sorted_insertionSort descByStart evs,
    ?_, by decide⟩
  refine List.Pairwise.imp ?_ (List.sorted_insertionSort descByStart evs)
  intro a b hr ha
  have : strKey (startKeyStr b) ≤ strKey "" := by
    simpa [descByStart, ha] using hr
  exact strKey_le_nil_eq_empty this

/-- C8: `filterEventsByCurrentMonth` keeps exactly the records whose resolved
start date parses into the reference day's year and month, sorted ascending
by start date; records with no resolvable start date are dropped; with
reference day 2026-03-15 a 2026-03-01 record is kept and a 2026-02-28 record
is dropped. -/
theorem filterEventsByCurrentMonth_keepsMonth : ∀ (evs : List Event) (now : ISODate),
    (∀ e, e ∈ filterEventsByCurrentMonth evs now ↔
      e ∈ evs ∧ eventInMonth e now = true) ∧
    (∀ e s d, resolveStartDate e = some s → parseISODate s = some d →
      (eventInMonth e now = true ↔ d.year = now.year ∧ d.month = now.month)) ∧
    (∀ e, resolveStartDate e = none → eventInMonth e now = false) ∧
    (filterEventsByCurrentMonth evs now).Pairwise ascByStart ∧
    filterEventsByCurrentMonth [evFebLate, evMar] ⟨2026, 3, 15⟩ = [evMar] := by
  intro evs now
  refine ⟨?_, ?_, ?_, ?_, by decide⟩
  · intro e
    rw [filterEventsByCurrentMonth,
      (List.perm_insertionSort ascByStart _).mem_iff, List.mem_filter]
  · intro e s d hs hd
    simp [eventInMonth, hs, hd]
  · intro e hs
    simp [eventInMonth, hs]
  · exact List.sorted_insertionSort ascByStart _

/-- C6: when the resolved end date differs from the resolved start date,
`formatDate` produces the compact range form, collapsing the month name when
the two dates share a month and showing both month names otherwise; when the
end date equals the start date or is absent, the single-date form is produced
instead, never the range form. -/
theorem formatDate_rangeForms (e : Event) (s t : String) (ds dt : ISODate)
    (hs : resolveStartDate e = some s)
    (hps : parseISODate s = some ds) (hpt : parseISODate t = some dt) :
    (resolveEndDate e = some t → t ≠ s →
      formatDate e =
        (if monthShortName ds.month = monthShortName dt.month then
          natToString ds.day ++ getOrdinalSuffix ds.day ++ " - " ++
            natToString dt.day ++ getOrdinalSuffix dt.day ++ " " ++
            monthShortName ds.month ++ " " ++ natToString ds.year
        else
          natToString ds.day ++ getOrdinalSuffix ds.day ++ " " ++
            monthShortName ds.month ++ " - " ++
            natToString dt.day ++ getOrdinalSuffix dt.day ++ " " ++
            monthShortName dt.month ++ " " ++ natToString ds.year)) ∧
    (resolveEndDate e = none ∨ resolveEndDate e = some s →
      formatDate e = formatSingleDate s) ∧
    formatDate evFeb = "7th - 9th Feb 2026" ∧
    formatDate evJanFeb = "28th Jan - 2nd Feb 2026" ∧
    formatDate evSameDay = "Saturday, 7th Feb 2026" ∧
    formatSingleDate "2026-02-07" = "Saturday, 7th Feb 2026" := by
  refine ⟨?_, ?_, by decide, by decide, by decide, by decide⟩
  · intro ht hne
    simp [formatDate, hs, ht, hne, hps, hpt]
  · intro h
    cases h with
    | inl hn => simp [formatDate, hs, hn]
    | inr he => simp [formatDate, hs, he]

/-- Witness for C6 at the 2026-02-07 to 2026-02-09 record. -/
theorem formatDate_rangeForms_witness :
    formatDate evFeb = "7th - 9th Feb 2026" :=
  (formatDate_rangeForms evFeb "2026-02-07" "2026-02-09" ⟨2026, 2, 7⟩ ⟨2026, 2, 9⟩
    rfl rfl rfl).2.2.1

/-- C1: for a record with a resolvable start date whose export end-date string
(the end-date alias chain, falling back to the start date) parses, the Google
Calendar URL, the Outlook URL and the ICS VEVENT all export the exclusive end
date `addOneDay` past the inclusive end date; in particular start 2026-02-07
with end 2026-02-09 exports 2026-02-10 in all three formats. -/
theorem calendarExports_exclusiveEnd (e : Event) (s : String) (dEnd : ISODate)
    (hs : resolveStartDate e = some s)
    (he : parseISODate (resolveExportEnd e s) = some dEnd) :
    (("dates", formatICSDate s ++ "/" ++ formatICSDate (dateToISO (addOneDay dEnd)))
        ∈ googleCalendarParams e s dEnd) ∧
    generateGoogleCalendarUrl e =
      .ok ("https://calendar.google.com/calendar/render?" ++
        serializeParams (googleCalendarParams e s dEnd)) ∧
    (∀ dStart, parseISODate s = some dStart →
      ("enddt", dateToISOString (addOneDay dEnd)) ∈ outlookParams e dStart dEnd ∧
      generateOutlookUrl e =
        .ok ("https://outlook.live.com/calendar/0/deeplink/compose?" ++
          serializeParams (outlookParams e dStart dEnd))) ∧
    (∀ ts i, ∃ pre post, icsEventChunk ts i e =
      .ok (pre ++ ("DTEND;VALUE=DATE:" ++
        formatICSDate (dateToISO (addOneDay dEnd)) ++ "\n") ++ post)) ∧
    (∀ ts cn, ∃ pre post, generateICS [e] cn ts =
      .ok (pre ++ ("DTEND;VALUE=DATE:" ++
        formatICSDate (dateToISO (addOneDay dEnd)) ++ "\n") ++ post)) ∧
    formatICSDate (dateToISO (addOneDay ⟨2026, 2, 9⟩)) = "20260210" ∧
    ("dates", "20260207/20260210") ∈ googleCalendarParams evFeb "2026-02-07" ⟨2026, 2, 9⟩ ∧
    ("enddt", "2026-02-10T00:00:00.000Z") ∈ outlookParams evFeb ⟨2026, 2, 7⟩ ⟨2026, 2, 9⟩ ∧
    icsEventChunk "20260101T000000Z" 0 evFeb =
      .ok (icsEventPre "20260101T000000Z" "event-0-20260207@railwaymodellingevents.com"
          "20260207" ++
        ("DTEND;VALUE=DATE:20260210" ++ "\n") ++ icsEventPost evFeb) := by
  have hchunk : ∀ ts i, icsEventChunk ts i e =
      .ok (icsEventPre ts
          ("event-" ++ natToString i ++ "-" ++ formatICSDate s ++
            "@railwaymodellingevents.com")
          (formatICSDate s) ++
        ("DTEND;VALUE=DATE:" ++ formatICSDate (dateToISO (addOneDay dEnd)) ++ "\n") ++
        icsEventPost e) := by
    intro ts i
    simp [icsEventChunk, hs, he]
  refine ⟨?_, ?_, ?_, ?_, ?_, by decide, by decide, by decide, by rfl⟩
  · simp [googleCalendarParams]
  · simp [generateGoogleCalendarUrl, hs, he]
  · intro dStart hds
    exact ⟨by simp [outlookParams], by simp [generateOutlookUrl, hs, hds, he]⟩
  · intro ts i
    exact ⟨_, _, hchunk ts i⟩
  · intro ts cn
    refine ⟨icsHeader cn ++
        icsEventPre ts
          ("event-" ++ natToString 0 ++ "-" ++ formatICSDate s ++
            "@railwaymodellingevents.com")
          (formatICSDate s),
      icsEventPost e ++ "END:VCALENDAR\n", ?_⟩
    simp [generateICS, List.foldlM, hchunk ts 0, String.append_assoc]

/-- Witness for C1 at the 2026-02-07 to 2026-02-09 record. -/
theorem calendarExports_exclusiveEnd_witness :
    ("dates", formatICSDate "2026-02-07" ++ "/" ++
        formatICSDate (dateToISO (addOneDay ⟨2026, 2, 9⟩))) ∈
      googleCalendarParams evFeb "2026-02-07" ⟨2026, 2, 9⟩ :=
  (calendarExports_exclusiveEnd evFeb "2026-02-07" ⟨2026, 2, 9⟩ rfl rfl).1

/-- Lookup in the empty county map. -/
theorem getCount_nil (c : String) : getCount [] c = 0 := rfl

/-- Lookup at a head entry with the key. -/
theorem getCount_cons_of_pos {p : String × Nat} {c : String} (m : List (String × Nat))
    (hc : p.1 = c) : getCount (p :: m) c = p.2 := by
  rw [getCount, List.find?_cons_of_pos _ (by simp [hc])]

/-- Lookup walks past a head entry with a different key. -/
theorem getCount_cons_of_neg {p : String × Nat} {c : String} (m : List (String × Nat))
    (hc : p.1 ≠ c) : getCount (p :: m) c = getCount m c := by
  rw [getCount, List.find?_cons_of_neg _ (by simp [hc]), getCount]

/-- `find?` looks through a map by a key-preserving entry rewrite. -/
theorem find?_map_keyPreserving (m : List (String × Nat))
    (f : String × Nat → String × Nat) (hf : ∀ p, (f p).1 = p.1) (c : String) :
    (m.map f).find? (fun p => p.1 = c) = (m.find? (fun p => p.1 = c)).map f := by
  induction m with
  | nil => rfl
  | cons p m ih =>
    by_cases hc : p.1 = c
    · rw [List.map_cons, List.find?_cons_of_pos _ (by simp [hf, hc]),
        List.find?_cons_of_pos _ (by simp [hc])]
      rfl
    · rw [List.map_cons, List.find?_cons_of_neg _ (by simp [hf, hc]),
        List.find?_cons_of_neg _ (by simp [hc]), ih]

/-- Bumping county `c` adds one to its looked-up count and leaves every other
county's count unchanged. -/
theorem getCount_bumpCounty (m : List (String × Nat)) (c cq : String) :
    getCount (bumpCounty m c) cq = getCount m cq + (if cq = c then 1 else 0) := by
  unfold bumpCounty
  by_cases hany : m.any (fun p => p.1 = c) = true
  · rw [if_pos hany, getCount,
      find?_map_keyPreserving _ _ (fun p => by by_cases h : p.1 = c <;> simp [h]) cq]
    cases hf : m.find? (fun p => decide (p.1 = cq)) with
    | none =>
      by_cases hqc : cq = c
      · exfalso
        subst hqc
        obtain ⟨x, hx, hpx⟩ := List.any_eq_true.mp hany
        have hsome : (m.find? (fun p => decide (p.1 = cq))).isSome :=
          List.find?_isSome.mpr ⟨x, hx, hpx⟩
        rw [hf] at hsome
        simp at hsome
      · simp [getCount, hf, hqc]
    | some q =>
      have hq : q.1 = cq := by simpa using List.find?_some hf
      by_cases hqc : cq = c
      · subst hqc
        simp [getCount, hf, hq]
      · simp [getCount, hf, hq, hqc]
  · rw [if_neg hany, getCount, List.find?_append]
    cases hf : m.find? (fun p => decide (p.1 = cq)) with
    | some q =>
      have hq : q.1 = cq := by simpa using List.find?_some hf
      have hqc : cq ≠ c := by
        intro h
        exact hany (List.any_eq_true.mpr
          ⟨q, List.mem_of_find?_eq_some hf, by simp [hq, h]⟩)
      simp [getCount, hf, hqc]
    | none =>
      by_cases hqc : cq = c
      · subst hqc
        simp [getCount, hf, List.find?]
      · simp [getCount, hf, List.find?, hqc, show ¬c = cq from fun h => hqc h.symm]

/-- The looked-up count after the whole counting fold: the initial count plus
the number of records mapped to the county. -/
theorem getCount_foldl_bump : ∀ (evs : List Event) (m : List (String × Nat)) (c : String),
    getCount (evs.foldl (fun m e => bumpCounty m (countyOf e)) m) c =
      getCount m c + (evs.map countyOf).count c := by
  intro evs
  induction evs with
  | nil => intro m c; simp
  | cons e evs ih =>
    intro m c
    rw [List.foldl_cons, ih, getCount_bumpCounty, List.map_cons, List.count_cons]
    by_cases h : countyOf e = c <;> (simp [h, Ne.symm]; try omega)

/-- Bumping preserves distinctness of the county keys. -/
theorem nodup_keys_bumpCounty (m : List (String × Nat)) (c : String)
    (h : (m.map Prod.fst).Nodup) : ((bumpCounty m c).map Prod.fst).Nodup := by
  unfold bumpCounty
  by_cases hany : m.any (fun p => p.1 = c) = true
  · rw [if_pos hany, List.map_map]
    have hk : (Prod.fst ∘ fun p : String × Nat =>
        if p.1 = c then (p.1, p.2 + 1) else p) = Prod.fst := by
      funext p
      by_cases hp : p.1 = c <;> simp [hp]
    rw [hk]
    exact h
  · rw [if_neg hany, List.map_append, show ([(c, 1)].map Prod.fst) = [c] from rfl]
    refine ((List.perm_append_singleton _ _).nodup_iff).mpr ?_
    rw [List.nodup_cons]
    refine ⟨?_, h⟩
    intro hc
    obtain ⟨p, hp, hpc⟩ := List.mem_map.mp hc
    exact hany (List.any_eq_true.mpr ⟨p, hp, by simp [hpc]⟩)

/-- Bumping preserves positivity of the counts. -/
theorem pos_bumpCounty (m : List (String × Nat)) (c : String)
    (h : ∀ p ∈ m, p.2 ≠ 0) : ∀ p ∈ bumpCounty m c, p.2 ≠ 0 := by
  unfold bumpCounty
  by_cases hany : m.any (fun p => p.1 = c) = true
  · rw [if_pos hany]
    intro p hp
    obtain ⟨q, hq, rfl⟩ := List.mem_map.mp hp
    by_cases hqc : q.1 = c
    · simp [hqc]
    · simp only [hqc, if_false]
      exact h q hq
  · rw [if_neg hany]
    intro p hp
    rcases List.mem_append.mp hp with h1 | h2
    · exact h p h1
    · rw [List.mem_singleton.mp h2]
      simp

/-- The counting fold keeps county keys distinct. -/
theorem nodup_keys_countyCounts (evs : List Event) :
    ((countyCounts evs).map Prod.fst).Nodup := by
  rw [countyCounts]
  have : ∀ (l : List Event) (m : List (String × Nat)), (m.map Prod.fst).Nodup →
      ((l.foldl (fun m e => bumpCounty m (countyOf e)) m).map Prod.fst).Nodup := by
    intro l
    induction l with
    | nil => intro m hm; exact hm
    | cons e l ih =>
      intro m hm
      exact ih _ (nodup_keys_bumpCounty _ _ hm)
  exact this evs [] (by simp)

/-- The counting fold keeps every count positive. -/
theorem pos_countyCounts (evs : List Event) :
    ∀ p ∈ countyCounts evs, p.2 ≠ 0 := by
  rw [countyCounts]
  have : ∀ (l : List Event) (m : List (String × Nat)), (∀ p ∈ m, p.2 ≠ 0) →
      ∀ p ∈ l.foldl (fun m e => bumpCounty m (countyOf e)) m, p.2 ≠ 0 := by
    intro l
    induction l with
    | nil => intro m hm; exact hm
    | cons e l ih =>
      intro m hm
      exact ih _ (pos_bumpCounty _ _ hm)
  exact this evs [] (by simp)

/-- In a map with distinct keys and positive counts, membership of an entry
is exactly agreement with the lookup. -/
theorem mem_iff_getCount : ∀ (m : List (String × Nat)),
    (m.map Prod.fst).Nodup → (∀ p ∈ m, p.2 ≠ 0) → ∀ (c : String) (n : Nat),
    ((c, n) ∈ m ↔ (n = getCount m c ∧ n ≠ 0)) := by
  intro m
  induction m with
  | nil =>
    intro _ _ c n
    simp [getCount_nil]
  | cons p m ih =>
    intro hnd hpos c n
    rw [List.map_cons, List.nodup_cons] at hnd
    obtain ⟨hp1, hnd'⟩ := hnd
    have hpos' : ∀ q ∈ m, q.2 ≠ 0 := fun q hq => hpos q (List.mem_cons_of_mem _ hq)
    have hppos : p.2 ≠ 0 := hpos p (List.mem_cons_self _ _)
    by_cases hc : p.1 = c
    · rw [getCount_cons_of_pos m hc]
      constructor
      · intro h
        rcases List.mem_cons.mp h with heq | hm
        · rw [← heq] at hppos ⊢
          exact ⟨rfl, hppos⟩
        · exact absurd (hc ▸ List.mem_map_of_mem Prod.fst hm) hp1
      · rintro ⟨hn, _⟩
        have : (c, n) = p := by
          rw [hn, ← hc]
        rw [this]
        exact List.mem_cons_self _ _
    · rw [getCount_cons_of_neg m hc, List.mem_cons]
      have hne : ¬((c, n) = p) := by
        intro h
        exact hc (by rw [← h])
      simp only [hne, false_or]
      exact ih hnd' hpos' c n

/-- C3: `extractCounties` maps each record to its county ("Not Specified"
when absent), counts records per county, and returns the aggregate ordered
alphabetically with the "Not Specified" bucket always last; the
Yorkshire/Kent/absent/Kent example produces keys Kent, Yorkshire,
Not Specified with counts 2, 1, 1. -/
theorem extractCounties_countsAndOrder : ∀ evs : List Event,
    (∀ c n, (c, n) ∈ extractCounties evs ↔ (n = countyCountOf evs c ∧ n ≠ 0)) ∧
    (extractCounties evs).Pairwise countyOrder ∧
    (extractCounties evs).Pairwise
      (fun a b => a.1 = "Not Specified" → b.1 = "Not Specified") ∧
    extractCounties [evYork, evKent1, evNoDate, evKent2] =
      [("Kent", 2), ("Yorkshire", 1), ("Not Specified", 1)] := by
  intro evs
  refine ⟨?_, List.sorted_insertionSort countyOrder _, ?_, by decide⟩
  · intro c n
    rw [extractCounties, (List.perm_insertionSort countyOrder _).mem_iff,
      mem_iff_getCount _ (nodup_keys_countyCounts evs) (pos_countyCounts evs) c n]
    have hcount : getCount (countyCounts evs) c = countyCountOf evs c := by
      have h := getCount_foldl_bump evs [] c
      rw [getCount_nil, Nat.zero_add] at h
      exact h
    rw [hcount, countyCountOf]
  · refine List.Pairwise.imp ?_ (List.sorted_insertionSort countyOrder _)
    intro a b hab ha
    rw [countyOrder, if_pos ha] at hab
    exact hab
